import Mathlib

/-!
Verification of the yahoo_auctions_api extraction pipeline.

Shallow embedding of the Go sources:
* src/internal/infrastructure/yahoo/scraper.go — heuristic HTML item extractor
  (extractItemInfo, isAuctionFinished, parsePrice)
* src/unnamed/part_001 — JSON-first item extractor
  (parseNextData, extractItemFromJSON, extractItemInfo)
* src/unnamed/part_000 (lines 232-282) — shared helpers of the current
  iteration (fetchHTML, parsePrice joining all digit runs, parseCount)
* src/internal/infrastructure/yahoo/category_scraper.go — extractCategoryItems
* src/internal/domain/model — Item, Status, CategoryItem, CategoryItemsPage

HTML documents are modelled by records exposing exactly the selector /
text queries the Go code performs (goquery is an external library); the
embedded JSON decode (encoding/json, also external) is modelled by a field
carrying its outcome.  Go int64 values are modelled as Int with explicit
2^63 bounds where strconv.ParseInt overflow matters.
-/

/-- Substring test on character lists: true iff needle occurs contiguously
in the haystack.  Models Go strings.Contains (byte-level containment of a
valid UTF-8 needle coincides with character-level containment). -/
def listContainsSeq (needle : List Char) : List Char → Bool
  | [] => needle.isEmpty
  | c :: rest => needle.isPrefixOf (c :: rest) || listContainsSeq needle rest

/-- Model of Go strings.Contains. -/
def strContains (hay sub : String) : Bool :=
  listContainsSeq sub.data hay.data

/-- Model of Go strings.ToLower.  Char.toLower lowers ASCII letters and is
the identity elsewhere; the Japanese keywords used by the scraper are
unaffected by case mapping, so this is faithful on the relevant alphabet. -/
def strToLower (s : String) : String :=
  ⟨s.data.map Char.toLower⟩

/-- Model of Go strings.TrimSpace: drop leading and trailing whitespace
characters. -/
def goTrimSpace (s : String) : String :=
  ⟨((s.data.dropWhile Char.isWhitespace).reverse.dropWhile Char.isWhitespace).reverse⟩

/-- Model of Go strings.TrimSuffix: drop the suffix when present,
otherwise return the string unchanged. -/
def goTrimSuffix (s suffix : String) : String :=
  if suffix.data.isSuffixOf s.data then
    ⟨s.data.take (s.data.length - suffix.data.length)⟩
  else s

/-- Value of a decimal digit list (most significant first). -/
def digitsToNat (ds : List Char) : Nat :=
  ds.foldl (fun a c => a * 10 + (c.toNat - 48)) 0

/-- Model of strconv.ParseInt(s, 10, 64) on a candidate digit string as
used by scraper.go parsePrice: none on empty input, non-digit input or
int64 overflow (the caller then falls back to 0). -/
def goParseInt64 (ds : List Char) : Option Int :=
  if ds.isEmpty then none
  else if ds.all Char.isDigit then
    let n := digitsToNat ds
    if n < 2 ^ 63 then some (n : Int) else none
  else none

/-- A character matched by the scraper.go regex class [0-9,]. -/
def isDigitOrComma (c : Char) : Bool :=
  c.isDigit || c = ','

/-- Leftmost maximal run of [0-9,] characters: the first match of the
scraper.go regex ([0-9,]+), none when the regex does not match. -/
def firstDigitCommaRun : List Char → Option (List Char)
  | [] => none
  | c :: rest =>
    if isDigitOrComma c then some (c :: rest.takeWhile isDigitOrComma)
    else firstDigitCommaRun rest

/-- Model of strings.ReplaceAll(s, ",", "") on the matched run. -/
def stripCommas (ds : List Char) : List Char :=
  ds.filter (fun c => c != ',')

/-- parsePrice from src/internal/infrastructure/yahoo/scraper.go lines
178-202: empty input gives 0; a no-charge keyword (無料 / free) in the
lowercased text gives 0; otherwise the first [0-9,]+ run is taken, commas
are stripped and the digits parsed as int64, any failure giving 0. -/
def parsePrice (text : String) : Int :=
  if text = "" then 0
  else
    let lowerText := strToLower text
    if strContains lowerText "無料" || strContains lowerText "free" then 0
    else
      match firstDigitCommaRun text.data with
      | some run =>
        match goParseInt64 (stripCommas run) with
        | some v => v
        | none => 0
      | none => 0

/-- Accumulator pass splitting a character list into its maximal digit
runs, in order: the matches of the regex [0-9]+ (FindAllString). -/
def digitRunsAux : List Char → List Char → List (List Char)
  | [], cur => if cur.isEmpty then [] else [cur.reverse]
  | c :: rest, cur =>
    if c.isDigit then digitRunsAux rest (c :: cur)
    else if cur.isEmpty then digitRunsAux rest []
    else cur.reverse :: digitRunsAux rest []

/-- All maximal digit runs of a string, in order. -/
def allDigitRuns (cs : List Char) : List (List Char) :=
  digitRunsAux cs []

/-- strconv.ParseInt with the error ignored, as in the shared helper of
src/unnamed/part_000: on a nonempty digit string a positive overflow
yields the maximum int64 value (ParseInt returns the clamped value
together with ErrRange, and the caller discards the error). -/
def goParseInt64Lenient (ds : List Char) : Int :=
  let n := digitsToNat ds
  if n < 2 ^ 63 then (n : Int) else (2 ^ 63 - 1 : Int)

/-- parsePrice from src/unnamed/part_000 lines 265-276 (the shared helper
of the current iteration, used by the category scraper): extract every
digit run, join them all and parse, ignoring the parse error; no runs
gives 0.  Unlike the superseded scraper.go parsePrice it has no no-charge
keyword check and does not stop at the first run. -/
def parsePriceAllDigits (s : String) : Int :=
  let runs := allDigitRuns s.data
  if runs.isEmpty then 0
  else goParseInt64Lenient runs.flatten

/-- parseCount from src/unnamed/part_000 lines 279-281: same
implementation; this is the sole count normalizer. -/
def parseCount (s : String) : Int :=
  parsePriceAllDigits s

/-- Status from src/internal/domain/model/item.go: Unspecified, Active,
Finished, Canceled. -/
inductive Status where
  | unspecified
  | active
  | finished
  | canceled
deriving DecidableEq, Repr

/-- An instant with timezone offset, the decoded form of an RFC 3339
timestamp.  The zero-value time.Time sentinel is modelled by Option.none
at the use sites. -/
structure DateTime where
  year : Nat
  month : Nat
  day : Nat
  hour : Nat
  minute : Nat
  second : Nat
  offsetMinutes : Int
deriving DecidableEq, Repr

/-- AuctionInformation from the domain model (the full struct is used by
src/unnamed/part_001 and src/internal/handler/auction.go; start and end
times are none when left at the zero-value sentinel). -/
structure AuctionInformation where
  auctionID : String
  startPrice : Int
  startTime : Option DateTime
  endTime : Option DateTime
  earlyEnd : Bool
  autoExtension : Bool
  returnable : Bool
  returnableDetail : String
deriving DecidableEq, Repr

/-- Item from the domain model, with the fields the extractors populate
(src/internal/domain/model/item.go plus the images, description and
auctionInfo fields used by src/unnamed/part_001 and the handler). -/
structure Item where
  auctionID : String
  title : String
  currentPrice : Int
  shippingFee : Int
  status : Status
  images : List String
  description : String
  auctionInfo : Option AuctionInformation
deriving DecidableEq, Repr

/-- CategoryItem from src/internal/domain/model (part_002 neighborhood). -/
structure CategoryItem where
  auctionID : String
  title : String
  currentPrice : Int
  immediatePrice : Int
  bidCount : Int
  image : String
deriving DecidableEq, Repr

/-- CategoryItemsPage from the domain model. -/
structure CategoryItemsPage where
  items : List CategoryItem
  totalCount : Int
  hasNext : Bool
deriving DecidableEq, Repr

/-- Read exactly k decimal digits from the front of the list, returning
their value and the remainder (numeric layout fields of time.Parse are
fixed-width for RFC 3339). -/
def readNatFixed (k : Nat) (cs : List Char) : Option (Nat × List Char) :=
  let pre := cs.take k
  if pre.length = k && pre.all Char.isDigit then
    some (digitsToNat pre, cs.drop k)
  else none

/-- Consume one expected literal character. -/
def expectChar (c : Char) : List Char → Option (List Char)
  | x :: rest => if x = c then some rest else none
  | [] => none

/-- Gregorian leap-year rule, as validated by Go time.Parse. -/
def isLeapYear (y : Nat) : Bool :=
  (y % 4 = 0 && y % 100 ≠ 0) || y % 400 = 0

/-- Days in a month, as validated by Go time.Parse. -/
def daysInMonth (y m : Nat) : Nat :=
  if m = 2 then (if isLeapYear y then 29 else 28)
  else if m = 4 || m = 6 || m = 9 || m = 11 then 30
  else 31

/-- Skip an optional fractional-seconds part: a period or comma followed
by at least one digit (time.Parse accepts a fraction after the seconds
even though the RFC 3339 layout has none). -/
def skipFraction (cs : List Char) : List Char :=
  match cs with
  | c :: rest =>
    if c = '.' || c = ',' then
      match rest with
      | d :: _ => if d.isDigit then rest.dropWhile Char.isDigit else cs
      | [] => cs
    else cs
  | [] => cs

/-- Read the RFC 3339 zone designator: Z for UTC or a signed HH:MM
offset, returned in minutes. -/
def readOffset (cs : List Char) : Option (Int × List Char) :=
  match cs with
  | 'Z' :: rest => some (0, rest)
  | c :: rest =>
    if c = '+' || c = '-' then do
      let (oh, cs2) ← readNatFixed 2 rest
      let cs3 ← expectChar ':' cs2
      let (om, cs4) ← readNatFixed 2 cs3
      if oh ≤ 23 ∧ om ≤ 59 then
        let total : Int := (oh * 60 + om : Nat)
        some (if c = '-' then -total else total, cs4)
      else none
    else none
  | [] => none

/-- Model of time.Parse(time.RFC3339, s): a strict
YYYY-MM-DDTHH:MM:SS(.fraction)?(Z or signed HH:MM) parse with calendar
range validation; none models a parse error. -/
def parseRFC3339 (s : String) : Option DateTime := do
  let cs := s.data
  let (y, cs) ← readNatFixed 4 cs
  let cs ← expectChar '-' cs
  let (mo, cs) ← readNatFixed 2 cs
  let cs ← expectChar '-' cs
  let (d, cs) ← readNatFixed 2 cs
  let cs ← expectChar 'T' cs
  let (h, cs) ← readNatFixed 2 cs
  let cs ← expectChar ':' cs
  let (mi, cs) ← readNatFixed 2 cs
  let cs ← expectChar ':' cs
  let (se, cs) ← readNatFixed 2 cs
  let cs := skipFraction cs
  let (off, cs) ← readOffset cs
  if cs.isEmpty ∧ 1 ≤ mo ∧ mo ≤ 12 ∧ 1 ≤ d ∧ d ≤ daysInMonth y mo
      ∧ h ≤ 23 ∧ mi ≤ 59 ∧ se ≤ 59 then
    some { year := y, month := mo, day := d, hour := h, minute := mi,
           second := se, offsetMinutes := off }
  else none

/-- itemReturnable sub-record of the NextData schema (part_001). -/
structure ItemReturnable where
  allowed : Bool
  comment : String
deriving DecidableEq, Repr

/-- An img entry of the NextData schema (part_001). -/
structure ImgEntry where
  image : String
  width : Int
  height : Int
deriving DecidableEq, Repr

/-- The innermost item record of the NextData schema (part_001 lines
82-101).  Go int64 fields are Int, bool fields Bool, strings String. -/
structure NextDataItem where
  title : String := ""
  price : Int := 0
  taxinPrice : Int := 0
  status : String := ""
  descriptionHtml : String := ""
  initPrice : Int := 0
  taxinStartPrice : Int := 0
  startTime : String := ""
  endTime : String := ""
  isEarlyClosing : Bool := false
  isAutomaticExtension : Bool := false
  itemReturnable : ItemReturnable := ⟨false, ""⟩
  img : List ImgEntry := []
deriving DecidableEq, Repr

/-- NextData from part_001.  The single field stands for the fixed Go
nesting props.pageProps.initialState.item.detail.item; the wrapper levels
carry no other data. -/
structure NextData where
  item : NextDataItem
deriving DecidableEq, Repr

/-- The status switch of extractItemFromJSON (part_001 lines 152-165):
an exact-match table with Unspecified as the default. -/
def statusFromJSON (s : String) : Status :=
  if s = "open" then Status.active
  else if s = "closed" then Status.finished
  else if s = "cancel" then Status.canceled
  else if s = "canceled" then Status.canceled
  else Status.unspecified

/-- The image loop of extractItemFromJSON (part_001 lines 143-150): a
URL is appended only when not in the seen set; the seen set is modelled
by the list of already-appended URLs. -/
def dedupImages (seen : List String) : List String → List String
  | [] => []
  | u :: rest =>
    if seen.contains u then dedupImages seen rest
    else u :: dedupImages (u :: seen) rest

/-- extractItemFromJSON from src/unnamed/part_001 lines 126-193: the
total JSON-based item mapper. -/
def extractItemFromJSON (data : NextData) (auctionID : String) : Item :=
  let itemData := data.item
  let currentPrice :=
    if itemData.taxinPrice > 0 then itemData.taxinPrice else itemData.price
  let images := dedupImages [] (itemData.img.map ImgEntry.image)
  let startPrice :=
    if itemData.taxinStartPrice > 0 then itemData.taxinStartPrice
    else itemData.initPrice
  let info : AuctionInformation :=
    { auctionID := auctionID
      startPrice := startPrice
      startTime := parseRFC3339 itemData.startTime
      endTime := parseRFC3339 itemData.endTime
      earlyEnd := itemData.isEarlyClosing
      autoExtension := itemData.isAutomaticExtension
      returnable := itemData.itemReturnable.allowed
      returnableDetail := itemData.itemReturnable.comment }
  { auctionID := auctionID
    title := itemData.title
    currentPrice := currentPrice
    shippingFee := 0
    status := statusFromJSON itemData.status
    images := images
    description := itemData.descriptionHtml
    auctionInfo := some info }

/-- Abstraction of a parsed detail-page document: each field is the
result of one of the goquery queries the scrapers perform.  The JSON
decode of the embedded block is performed by encoding/json (an external
library); its outcome on the script content is carried alongside. -/
structure HtmlDoc where
  /-- Text of the first match of h1.ProductTitle__text, h1.yaProductTitle, h1. -/
  h1Text : String := ""
  /-- Text of the title element. -/
  titleTag : String := ""
  /-- Text of the first match of .Price__value, .yaPrice, .price. -/
  priceSelText : String := ""
  /-- Text of the first match of .ShippingFee__value, .shippingFee, .shipping. -/
  shippingSelText : String := ""
  /-- Text of every element, in the document order of Find("*"). -/
  allElementTexts : List String := []
  /-- Full page text, doc.Text(). -/
  pageText : String := ""
  /-- Texts of the elements matched by Find("button, a"). -/
  buttonLinkTexts : List String := []
  /-- Text of script#__NEXT_DATA__, empty when the block is absent. -/
  nextDataScript : String := ""
  /-- Outcome of json.Unmarshal on the script content: none models a
  decode error. -/
  nextDataParse : Option NextData := none

/-- parseNextData from src/unnamed/part_001 lines 111-123: error when
the script block is missing, error when the JSON does not decode, the
decoded record otherwise. -/
def parseNextData (doc : HtmlDoc) : Except String NextData :=
  if doc.nextDataScript = "" then Except.error "next data script not found"
  else
    match doc.nextDataParse with
    | some d => Except.ok d
    | none => Except.error "failed to unmarshal next data"

/-- extractItemInfo from src/unnamed/part_001 lines 62-72 (the JSON-first
iteration): any locator failure is wrapped and returned as an error; on
success the total JSON mapper runs. -/
def extractItemInfoJSON (doc : HtmlDoc) (auctionID : String) : Except String Item :=
  match parseNextData doc with
  | Except.error e => Except.error ("failed to parse next data: " ++ e)
  | Except.ok nextData => Except.ok (extractItemFromJSON nextData auctionID)

/-- The title resolution of the heuristic extractItemInfo (scraper.go
lines 82-92): structural selectors first, then the title element with
the known suffix stripped. -/
def heuristicTitle (doc : HtmlDoc) : String :=
  let t := goTrimSpace doc.h1Text
  if t = "" then goTrimSpace (goTrimSuffix doc.titleTag " - ヤフオク!")
  else t

/-- The current-price text resolution of the heuristic extractItemInfo
(scraper.go lines 99-108): the selector text, else the last element text
containing both 円 and 現在価格 (the Each loop overwrites on every
match, so the final match wins). -/
def heuristicPriceText (doc : HtmlDoc) : String :=
  let t := goTrimSpace doc.priceSelText
  if t = "" then
    (doc.allElementTexts.filter
      (fun s => strContains s "円" && strContains s "現在価格")).getLastD ""
  else t

/-- The shipping-fee text resolution of the heuristic extractItemInfo
(scraper.go lines 112-121): the selector text, else the last element
text containing 送料 or 配送料. -/
def heuristicShippingText (doc : HtmlDoc) : String :=
  let t := goTrimSpace doc.shippingSelText
  if t = "" then
    (doc.allElementTexts.filter
      (fun s => strContains s "送料" || strContains s "配送料")).getLastD ""
  else t

/-- The cancellation check of the heuristic extractItemInfo (scraper.go
line 130): the lowercased page text contains キャンセル or 取り消し. -/
def hasCancelKeyword (doc : HtmlDoc) : Bool :=
  let lowerText := strToLower doc.pageText
  strContains lowerText "キャンセル" || strContains lowerText "取り消し"

/-- The bid-affordance check of isAuctionFinished (scraper.go lines
148-153): some button or link whose lowercased text contains 入札する or
入札. -/
def hasBidAffordance (doc : HtmlDoc) : Bool :=
  doc.buttonLinkTexts.any (fun t =>
    let lt := strToLower t
    strContains lt "入札する" || strContains lt "入札")

/-- The fixed finished-keyword list of isAuctionFinished (scraper.go
lines 157-165). -/
def finishedKeywords : List String :=
  ["終了済み", "落札済み", "このオークションは終了しました",
   "オークションは終了しました", "終了しました", "落札されました", "時間切れ"]

/-- isAuctionFinished from scraper.go lines 146-174: a bid affordance
vetoes finished; otherwise any finished keyword in the lowercased page
text means finished. -/
def isAuctionFinished (doc : HtmlDoc) (lowerText : String) : Bool :=
  if hasBidAffordance doc then false
  else finishedKeywords.any (fun k => strContains lowerText (strToLower k))

/-- Finished-keyword presence in the lowercased page text, the second
signal of the status classifier. -/
def hasFinishedKeyword (doc : HtmlDoc) : Bool :=
  finishedKeywords.any (fun k => strContains (strToLower doc.pageText) (strToLower k))

/-- extractItemInfo from src/internal/infrastructure/yahoo/scraper.go
lines 76-141 (the heuristic iteration): title resolution with a fatal
error when empty, total price and shipping normalization, then the
keyword/affordance status classifier.  This iteration of the Item struct
has no images, description or auctionInfo fields, so they stay at their
zero values. -/
def extractItemInfoHeuristic (doc : HtmlDoc) (auctionID : String) : Except String Item :=
  if heuristicTitle doc = "" then
    Except.error "item title not found - page structure may have changed"
  else
    Except.ok
      { auctionID := auctionID
        title := heuristicTitle doc
        currentPrice := parsePrice (heuristicPriceText doc)
        shippingFee := parsePrice (heuristicShippingText doc)
        status :=
          if hasCancelKeyword doc then Status.canceled
          else if isAuctionFinished doc (strToLower doc.pageText) then Status.finished
          else Status.active
        images := []
        description := ""
        auctionInfo := none }

/-- One li.Product row of a category listing document, exposing the
per-row queries of extractCategoryItems. -/
structure CatRow where
  /-- Text of h3.Product__title a.Product__titleLink. -/
  titleLinkText : String := ""
  /-- data-auction-id attribute of the title link, none when absent. -/
  auctionIdAttr : Option String := none
  /-- src attribute of img.Product__imageData, none when absent. -/
  imgSrc : Option String := none
  /-- data-src attribute of img.Product__imageData, none when absent. -/
  imgDataSrc : Option String := none
  /-- For each span.Product__price in order, the text of its
  span.Product__priceValue. -/
  priceValues : List String := []
  /-- Text of dd.Product__bid. -/
  bidText : String := ""

/-- Abstraction of a parsed category listing document. -/
structure CatDoc where
  /-- The li.Product rows in document order. -/
  rows : List CatRow := []
  /-- Text of the Tab__subText total-count region. -/
  totalCountText : String := ""

/-- The per-row mapping of extractCategoryItems (category_scraper.go
lines 71-114). -/
def extractCategoryRow (r : CatRow) : CategoryItem :=
  { title := goTrimSpace r.titleLinkText
    auctionID := r.auctionIdAttr.getD ""
    image :=
      match r.imgSrc with
      | some src => src
      | none => r.imgDataSrc.getD ""
    currentPrice := parsePriceAllDigits (r.priceValues.headD "")
    immediatePrice :=
      if 1 < r.priceValues.length then parsePriceAllDigits (r.priceValues.getD 1 "")
      else 0
    bidCount := parseCount r.bidText }

/-- extractCategoryItems from category_scraper.go lines 67-126: maps the
rows in order, reads the total count from its own region, and sets
hasNext iff a full page of 50 rows was returned.  The Go function always
returns a nil error. -/
def extractCategoryItems (doc : CatDoc) : Except String CategoryItemsPage :=
  let items := doc.rows.map extractCategoryRow
  Except.ok
    { items := items
      totalCount := parseCount doc.totalCountText
      hasNext := decide (50 ≤ items.length) }

/-- Spec-side description of image deduplication: keep exactly the first
occurrence of each URL, in first-seen order. -/
def firstOccurrenceDedup : List String → List String
  | [] => []
  | u :: rest => u :: firstOccurrenceDedup (rest.filter (fun v => v != u))
termination_by l => l.length
decreasing_by
  simp only [List.length_cons]
  exact Nat.lt_succ_of_le (List.length_filter_le _ _)

theorem dedupImages_eq_filter (l : List String) :
    ∀ seen, dedupImages seen l =
      firstOccurrenceDedup (l.filter (fun v => !seen.contains v)) := by
  induction l with
  | nil => intro seen; simp [dedupImages, firstOccurrenceDedup]
  | cons u rest ih =>
    intro seen
    rw [List.filter_cons]
    by_cases h : seen.contains u = true
    · simp only [h, Bool.not_true, Bool.false_eq_true, if_false]
      simp only [dedupImages, h, if_true]
      exact ih seen
    · rw [Bool.not_eq_true] at h
      simp only [h, Bool.not_false, if_true]
      simp only [dedupImages, h, Bool.false_eq_true, if_false]
      simp only [firstOccurrenceDedup]
      rw [ih (u :: seen), List.filter_filter]
      have hf : List.filter (fun v => !(u :: seen).contains v) rest =
          List.filter (fun a => a != u && !seen.contains a) rest := by
        apply List.filter_congr
        intro v _
        rw [List.contains_cons]
        simp only [bne]
        cases v == u <;> cases seen.contains v <;> rfl
      rw [hf]

theorem dedupImages_eq_firstOccurrenceDedup (l : List String) :
    dedupImages [] l = firstOccurrenceDedup l := by
  rw [dedupImages_eq_filter l []]
  congr 1
  induction l with
  | nil => rfl
  | cons u rest ih => simp [ih]

theorem goParseInt64_nonneg (ds : List Char) (v : Int)
    (h : goParseInt64 ds = some v) : 0 ≤ v := by
  unfold goParseInt64 at h
  split at h
  · exact absurd h (by simp)
  · split at h
    · dsimp only at h
      split at h
      · rw [Option.some.injEq] at h
        subst h
        exact Int.natCast_nonneg _
      · exact absurd h (by simp)
    · exact absurd h (by simp)

theorem parsePrice_nonneg (s : String) : 0 ≤ parsePrice s := by
  unfold parsePrice
  dsimp only
  repeat' split
  all_goals first
    | exact Int.le_refl 0
    | (rename_i v hv; exact goParseInt64_nonneg _ _ hv)

/-- C1 (amended): in the JSON-first extractor of src/unnamed/part_001, a
structured-payload locator failure (missing or undecodable embedded JSON
block) is propagated: extractItemInfo wraps the locator error and
returns it, and no heuristic fallback is invoked.  The heuristic
extractor is a separate superseded iteration, not a fallback of this
one. -/
theorem c1_locator_failure_propagates (doc : HtmlDoc) (auctionID e : String)
    (h : parseNextData doc = Except.error e) :
    extractItemInfoJSON doc auctionID =
      Except.error ("failed to parse next data: " ++ e) := by
  unfold extractItemInfoJSON
  rw [h]

/-- Witness for C1: on a document without the __NEXT_DATA__ block the
JSON-first extractor returns the wrapped locator error. -/
theorem c1_locator_failure_propagates_witness :
    extractItemInfoJSON { nextDataScript := "" } "x123" =
      Except.error "failed to parse next data: next data script not found" :=
  c1_locator_failure_propagates { nextDataScript := "" } "x123"
    "next data script not found" rfl

/-- Counterexample to C1 as stated: a document whose locator fails but on
which the heuristic extractor would succeed still makes the JSON-first
extractItemInfo return an error, so a locator failure alone does cause
ExtractItem to fail and no fallback runs. -/
theorem c1_counterexample :
    (∃ e, extractItemInfoJSON
        { h1Text := "Sample Item", nextDataScript := "" } "x123" =
        Except.error e) ∧
    (∃ item, extractItemInfoHeuristic
        { h1Text := "Sample Item", nextDataScript := "" } "x123" =
        Except.ok item) :=
  ⟨⟨"failed to parse next data: next data script not found", rfl⟩,
   ⟨{ auctionID := "x123", title := "Sample Item", currentPrice := 0,
      shippingFee := 0, status := Status.active, images := [],
      description := "", auctionInfo := none }, rfl⟩⟩

/-- C3: the JSON-path status mapping is an exact, exhaustive function of
the payload status string: open maps to Active, closed to Finished,
cancel and canceled to Canceled, and every other string (including ???
and the empty string) to Unspecified, with no other inference. -/
theorem c3_status_mapping :
    (∀ data auctionID,
        (extractItemFromJSON data auctionID).status = statusFromJSON data.item.status) ∧
    statusFromJSON "open" = Status.active ∧
    statusFromJSON "closed" = Status.finished ∧
    statusFromJSON "cancel" = Status.canceled ∧
    statusFromJSON "canceled" = Status.canceled ∧
    statusFromJSON "???" = Status.unspecified ∧
    statusFromJSON "" = Status.unspecified ∧
    (∀ s, s ≠ "open" → s ≠ "closed" → s ≠ "cancel" → s ≠ "canceled" →
        statusFromJSON s = Status.unspecified) := by
  refine ⟨fun data auctionID => rfl, rfl, rfl, rfl, rfl, rfl, rfl, ?_⟩
  intro s h1 h2 h3 h4
  simp [statusFromJSON, h1, h2, h3, h4]

/-- Witness for C3: the default branch at the concrete status ???. -/
theorem c3_status_mapping_witness : statusFromJSON "???" = Status.unspecified :=
  c3_status_mapping.2.2.2.2.2.2.2 "???" (by decide) (by decide) (by decide) (by decide)

/-- C4: the JSON-based mapper sets currentPrice to taxinPrice when
taxinPrice is positive and to price otherwise, and independently sets
auctionInfo.startPrice to taxinStartPrice when positive and to initPrice
otherwise. -/
theorem c4_price_precedence (data : NextData) (auctionID : String) :
    (0 < data.item.taxinPrice →
      (extractItemFromJSON data auctionID).currentPrice = data.item.taxinPrice) ∧
    (data.item.taxinPrice ≤ 0 →
      (extractItemFromJSON data auctionID).currentPrice = data.item.price) ∧
    (0 < data.item.taxinStartPrice →
      (extractItemFromJSON data auctionID).auctionInfo.map AuctionInformation.startPrice =
        some data.item.taxinStartPrice) ∧
    (data.item.taxinStartPrice ≤ 0 →
      (extractItemFromJSON data auctionID).auctionInfo.map AuctionInformation.startPrice =
        some data.item.initPrice) := by
  refine ⟨fun h => ?_, fun h => ?_, fun h => ?_, fun h => ?_⟩
  · show (if data.item.taxinPrice > 0 then data.item.taxinPrice else data.item.price) =
      data.item.taxinPrice
    exact if_pos h
  · show (if data.item.taxinPrice > 0 then data.item.taxinPrice else data.item.price) =
      data.item.price
    exact if_neg (not_lt.mpr h)
  · show some (if data.item.taxinStartPrice > 0 then data.item.taxinStartPrice
        else data.item.initPrice) = some data.item.taxinStartPrice
    rw [if_pos h]
  · show some (if data.item.taxinStartPrice > 0 then data.item.taxinStartPrice
        else data.item.initPrice) = some data.item.initPrice
    rw [if_neg (not_lt.mpr h)]

/-- Witness for C4: the test payload with taxinPrice 1234 and price 100
maps to currentPrice 1234. -/
theorem c4_price_precedence_witness :
    (extractItemFromJSON ⟨{ price := 100, taxinPrice := 1234 }⟩ "x123").currentPrice = 1234 :=
  (c4_price_precedence ⟨{ price := 100, taxinPrice := 1234 }⟩ "x123").1 (by decide)

/-- C5: the JSON-based item mapper is total: every decoded payload and
auction ID produce an Item, whose auctionInfo start and end times carry
the RFC 3339 parse result, the zero-value sentinel (none) exactly when
the timestamp does not parse, while the remaining fields stay populated;
the string not-a-time does not parse, a well-formed offset timestamp
does. -/
theorem c5_json_mapper_total (data : NextData) (auctionID : String) :
    ∃ info, (extractItemFromJSON data auctionID).auctionInfo = some info ∧
      info.startTime = parseRFC3339 data.item.startTime ∧
      info.endTime = parseRFC3339 data.item.endTime ∧
      (extractItemFromJSON data auctionID).title = data.item.title ∧
      (extractItemFromJSON data auctionID).auctionID = auctionID ∧
      (extractItemFromJSON data auctionID).description = data.item.descriptionHtml ∧
      parseRFC3339 "not-a-time" = none ∧
      parseRFC3339 "2025-12-29T16:00:10+09:00" =
        some { year := 2025, month := 12, day := 29, hour := 16, minute := 0,
               second := 10, offsetMinutes := 540 } :=
  ⟨_, rfl, rfl, rfl, rfl, rfl, rfl, rfl, rfl⟩

theorem isAuctionFinished_pageText (doc : HtmlDoc) :
    isAuctionFinished doc (strToLower doc.pageText) =
      if hasBidAffordance doc then false else hasFinishedKeyword doc := rfl

/-- C2: the heuristic status classifier decides by priority: a
cancellation keyword in the lowercased page text gives Canceled
regardless of all other signals; otherwise a bid-affordance element
prevents Finished even when finished keywords occur; otherwise a
finished keyword from the fixed list gives Finished; and with none of
these the status is Active. -/
theorem c2_status_classifier (doc : HtmlDoc) (auctionID : String) (item : Item)
    (h : extractItemInfoHeuristic doc auctionID = Except.ok item) :
    (hasCancelKeyword doc = true → item.status = Status.canceled) ∧
    (hasCancelKeyword doc = false → hasBidAffordance doc = true →
      item.status ≠ Status.finished) ∧
    (hasCancelKeyword doc = false → hasBidAffordance doc = false →
      hasFinishedKeyword doc = true → item.status = Status.finished) ∧
    (hasCancelKeyword doc = false → hasBidAffordance doc = false →
      hasFinishedKeyword doc = false → item.status = Status.active) := by
  unfold extractItemInfoHeuristic at h
  split at h
  · exact absurd h (by simp)
  · rw [Except.ok.injEq] at h
    subst h
    refine ⟨fun hc => ?_, fun hc hb => ?_, fun hc hb hf => ?_, fun hc hb hf => ?_⟩
    · simp [hc]
    · simp [hc, isAuctionFinished_pageText, hb]
    · simp [hc, isAuctionFinished_pageText, hb, hf]
    · simp [hc, isAuctionFinished_pageText, hb, hf]

/-- Witness for C2: a page whose text contains a cancellation keyword is
classified Canceled. -/
theorem c2_status_classifier_witness :
    ({ auctionID := "x123", title := "T", currentPrice := 0, shippingFee := 0,
       status := Status.canceled, images := [], description := "",
       auctionInfo := none } : Item).status = Status.canceled :=
  (c2_status_classifier { h1Text := "T", pageText := "キャンセル" } "x123"
    { auctionID := "x123", title := "T", currentPrice := 0, shippingFee := 0,
      status := Status.canceled, images := [], description := "",
      auctionInfo := none } rfl).1 rfl

/-- C6: in the heuristic path, when both title strategies (the
structural selectors and the title region with the known suffix
stripped) produce an empty title, extraction aborts with the fatal
title-not-found error; whenever a title is found extraction succeeds
(title is the only fatal field); in the JSON path the title is copied
verbatim, so an empty payload title still yields an Item. -/
theorem c6_title_fatality :
    (∀ doc auctionID, goTrimSpace doc.h1Text = "" →
        goTrimSpace (goTrimSuffix doc.titleTag " - ヤフオク!") = "" →
        extractItemInfoHeuristic doc auctionID =
          Except.error "item title not found - page structure may have changed") ∧
    (∀ doc auctionID, heuristicTitle doc ≠ "" →
        ∃ item, extractItemInfoHeuristic doc auctionID = Except.ok item ∧
          item.title = heuristicTitle doc) ∧
    (∀ data auctionID, (extractItemFromJSON data auctionID).title = data.item.title) := by
  refine ⟨fun doc auctionID h1 h2 => ?_, fun doc auctionID h => ?_,
    fun data auctionID => rfl⟩
  · have ht : heuristicTitle doc = "" := by
      unfold heuristicTitle
      simp only [h1, if_pos]
      exact h2
    unfold extractItemInfoHeuristic
    simp only [ht, if_pos]
  · unfold extractItemInfoHeuristic
    rw [if_neg h]
    exact ⟨_, rfl, rfl⟩

/-- Witness for C6: the empty document has no title by either strategy
and extraction fails with the fatal error. -/
theorem c6_title_fatality_witness :
    extractItemInfoHeuristic {} "x123" =
      Except.error "item title not found - page structure may have changed" :=
  c6_title_fatality.1 {} "x123" rfl rfl

/-- Non-negativity of the lenient ParseInt model. -/
theorem goParseInt64Lenient_nonneg (ds : List Char) : 0 ≤ goParseInt64Lenient ds := by
  unfold goParseInt64Lenient
  dsimp only
  split
  · exact Int.natCast_nonneg _
  · decide

/-- Non-negativity of the shared part_000 normalizer. -/
theorem parsePriceAllDigits_nonneg (s : String) : 0 ≤ parsePriceAllDigits s := by
  unfold parsePriceAllDigits
  dsimp only
  split
  · exact Int.le_refl 0
  · exact goParseInt64Lenient_nonneg _

/-- C7 (amended): both price/count normalizers are total and
non-negative, map 1,000円 to 1000 and the empty string to 0.  The
superseded scraper.go parsePrice additionally satisfies the claim in
full: a no-charge keyword (無料 or free, case-insensitively) forces 0,
and otherwise the first contiguous [0-9,] run is taken, separators
stripped and the digits parsed, 0 when nothing parseable remains.  The
live shared normalizer (part_000 parsePrice, also the count normalizer
parseCount) has no no-charge check and concatenates every digit run
before parsing, discarding the parse error. -/
theorem c7_parse_price_both :
    (∀ s, (strContains (strToLower s) "無料" || strContains (strToLower s) "free") = true →
        parsePrice s = 0) ∧
    parsePrice "1,000円" = 1000 ∧
    parsePrice "" = 0 ∧
    (∀ s, 0 ≤ parsePrice s) ∧
    (∀ s, s ≠ "" →
      (strContains (strToLower s) "無料" || strContains (strToLower s) "free") = false →
      parsePrice s =
        (match firstDigitCommaRun s.data with
         | some run => (goParseInt64 (stripCommas run)).getD 0
         | none => 0)) ∧
    parsePriceAllDigits "1,000円" = 1000 ∧
    parsePriceAllDigits "" = 0 ∧
    (∀ s, 0 ≤ parsePriceAllDigits s) ∧
    (∀ s, parseCount s = parsePriceAllDigits s) ∧
    (∀ s, parsePriceAllDigits s =
        if (allDigitRuns s.data).isEmpty then 0
        else goParseInt64Lenient (allDigitRuns s.data).flatten) := by
  refine ⟨fun s hs => ?_, rfl, rfl, parsePrice_nonneg, fun s hne hkw => ?_,
    rfl, rfl, parsePriceAllDigits_nonneg, fun s => rfl, fun s => rfl⟩
  · unfold parsePrice
    by_cases h0 : s = ""
    · simp [h0]
    · rw [if_neg h0]
      simp only [hs, if_pos]
  · unfold parsePrice
    rw [if_neg hne]
    simp only [hkw, Bool.false_eq_true, if_false]
    cases hr : firstDigitCommaRun s.data with
    | none => rfl
    | some run =>
      dsimp only
      cases hg : goParseInt64 (stripCommas run) <;> simp [hg]

/-- Witness for C7: the no-charge input 送料無料 normalizes to 0 under
the scraper.go normalizer. -/
theorem c7_parse_price_both_witness : parsePrice "送料無料" = 0 :=
  c7_parse_price_both.1 "送料無料" (by decide)

/-- Counterexample to C7 as stated: the cited part_000 normalizer (the
live helper and sole count normalizer) returns 100, not 0, on the
no-charge input 無料 100円, and returns 1234 on 12 34 whose first
contiguous digit run is only 12 — refuting the no-charge and first-run
conjuncts for that normalizer. -/
theorem c7_counterexample :
    strContains (strToLower "無料 100円") "無料" = true ∧
    parsePriceAllDigits "無料 100円" = 100 ∧
    parsePriceAllDigits "無料 100円" ≠ 0 ∧
    parsePriceAllDigits "12 34" = 1234 ∧
    firstDigitCommaRun "12 34".data = some [Char.ofNat 49, Char.ofNat 50] := by
  refine ⟨by decide, by decide, by decide, by decide, by decide⟩

/-- C8: the JSON-path image deduplication keeps exactly the first
occurrence of each URL, by exact string equality, in first-seen order;
in particular the image sequence A, B, A, C maps to A, B, C. -/
theorem c8_image_dedup :
    (∀ data auctionID, (extractItemFromJSON data auctionID).images =
        firstOccurrenceDedup (data.item.img.map ImgEntry.image)) ∧
    (extractItemFromJSON
        ⟨{ img := [⟨"A", 1, 1⟩, ⟨"B", 1, 1⟩, ⟨"A", 1, 1⟩, ⟨"C", 1, 1⟩] }⟩
        "x123").images = ["A", "B", "C"] := by
  refine ⟨fun data auctionID => ?_, rfl⟩
  show dedupImages [] (data.item.img.map ImgEntry.image) = _
  exact dedupImages_eq_firstOccurrenceDedup _

/-- C9 (amended): every Item built by the heuristic extractor has a
non-negative currentPrice (the price normalizer only yields values in
[0, 2^63)); the JSON mapper copies taxinPrice or price without a guard,
so its currentPrice is non-negative whenever the decoded payload price
is, but not for a payload carrying a negative price. -/
theorem c9_current_price_nonneg :
    (∀ doc auctionID item,
        extractItemInfoHeuristic doc auctionID = Except.ok item →
        0 ≤ item.currentPrice) ∧
    (∀ data auctionID, 0 ≤ data.item.price →
        0 ≤ (extractItemFromJSON data auctionID).currentPrice) := by
  constructor
  · intro doc auctionID item h
    unfold extractItemInfoHeuristic at h
    split at h
    · exact absurd h (by simp)
    · rw [Except.ok.injEq] at h
      subst h
      exact parsePrice_nonneg _
  · intro data auctionID h
    show 0 ≤ if data.item.taxinPrice > 0 then data.item.taxinPrice else data.item.price
    by_cases ht : data.item.taxinPrice > 0
    · rw [if_pos ht]
      exact le_of_lt ht
    · rw [if_neg ht]
      exact h

/-- Witness for C9: a payload with non-negative prices yields a
non-negative currentPrice. -/
theorem c9_current_price_nonneg_witness :
    0 ≤ (extractItemFromJSON ⟨{ price := 999 }⟩ "x123").currentPrice :=
  c9_current_price_nonneg.2 ⟨{ price := 999 }⟩ "x123" (by decide)

/-- Counterexample to C9 as stated: a decoded payload with price -5 and
taxinPrice 0 maps to an Item whose currentPrice is negative. -/
theorem c9_counterexample :
    ¬ (0 ≤ (extractItemFromJSON ⟨{ price := -5 }⟩ "x123").currentPrice) := by
  decide

/-- C10 (amended): the category listing extractor is total, so the
error branch of the category repository is reachable only from the
fetch stage; a document with no recognizable listing rows yields an
empty item sequence and hasNext false, while totalCount is read
independently from the page-level total-count region and is 0 when that
region yields no text. -/
theorem c10_category_extractor_total :
    (∀ doc, ∃ page, extractCategoryItems doc = Except.ok page) ∧
    (∀ doc, doc.rows = [] →
        extractCategoryItems doc =
          Except.ok { items := [], totalCount := parseCount doc.totalCountText,
                      hasNext := false }) ∧
    parseCount "" = 0 := by
  refine ⟨fun doc => ⟨_, rfl⟩, fun doc h => ?_, rfl⟩
  unfold extractCategoryItems
  rw [h]
  rfl

/-- Witness for C10: the empty category document yields the empty page
with total count 0 and no next page. -/
theorem c10_category_extractor_total_witness :
    extractCategoryItems { rows := [], totalCountText := "" } =
      Except.ok { items := [], totalCount := parseCount "", hasNext := false } :=
  c10_category_extractor_total.2.1 { rows := [], totalCountText := "" } rfl

/-- Counterexample to C10 as stated: a document with no listing rows but
a populated total-count region reports that count, not 0. -/
theorem c10_counterexample :
    (extractCategoryItems { rows := [], totalCountText := "1,234件" }).toOption.map
      CategoryItemsPage.totalCount ≠ some 0 := by
  decide
